import Mathlib

/-!
Verification development for the railway seat-booking core
(repository `rajeet-04/railway`).

The repository ships the booking engine as design documents with concrete
SQL (`backend/database/BOOKING_FLOW.md`, `docs/AGENT_SPEC.md`) plus an
implemented Next.js frontend.  The SQL transactions (booking commit,
booking cancellation, hold release) are embedded directly; the REST
operations whose backend code is absent from the repository
(`createHold`, the reaper, the hold-release endpoint, the failure paths
of `finalizeBooking`) are modelled from the specification, as marked on
each definition.  The frontend seat-selection and pricing logic is
embedded from `frontend/app/book/[trainNumber]/page.tsx`.

All state is the inventory of a single train-run, which is the unit of
mutual exclusion in the design; the SQLite tables are modelled as
association lists keyed by integer primary keys, with fresh keys taken
from counters (SQLite AUTOINCREMENT).  New rows are prepended; lookup
takes the first match, so a lookup by a freshly generated key always
finds the fresh row, as primary-key uniqueness guarantees in SQLite.
-/

namespace Railway

inductive SeatStatus where
  | AVAILABLE
  | HELD
  | BOOKED
deriving DecidableEq

inductive HoldStatus where
  | ACTIVE
  | CONSUMED
  | EXPIRED
  | RELEASED
deriving DecidableEq

inductive BookingStatus where
  | CONFIRMED
  | CANCELLED
deriving DecidableEq

inductive PayStatus where
  | PAID
  | REFUNDED
deriving DecidableEq

/-- A row of the `seats` table (one train-run): status, optional hold
reference (`hold_id`), and `price_cents`. -/
structure Seat where
  status : SeatStatus
  holdId : Option Nat
  price : Nat
deriving DecidableEq

/-- A row of the `seat_holds` table: owning user, seat ids, expiry
instant and status. -/
structure Hold where
  userId : Nat
  seatIds : List Nat
  expiresAt : Nat
  status : HoldStatus
deriving DecidableEq

/-- A row of the `bookings` table together with the seat ids of its
`booking_seats` rows. -/
structure Booking where
  userId : Nat
  seatIds : List Nat
  total : Nat
  status : BookingStatus
  payStatus : PayStatus
deriving DecidableEq

/-- The transactional store for one train-run: the three tables, the id
counters, and the clock. -/
structure DB where
  seats : List (Nat × Seat)
  holds : List (Nat × Hold)
  bookings : List (Nat × Booking)
  nextHoldId : Nat
  nextBookingId : Nat
  now : Nat
deriving DecidableEq

/-- Error taxonomy of the operation surface. -/
inductive BErr where
  | InvalidRequest
  | NotFound
  | SeatUnavailable
  | HoldNotFound
  | Forbidden
  | HoldExpired
  | Conflict
  | PassengerCountMismatch
  | PaymentDeclined
deriving DecidableEq

/-- Result of one call: a value or exactly one error kind. -/
inductive Res (α : Type) where
  | ok (a : α)
  | err (e : BErr)
deriving DecidableEq

/-- First row with the given primary key (SQL `WHERE id = k`). -/
def lookupKey (k : Nat) : List (Nat × α) → Option α
  | [] => none
  | (k', v) :: rest => if k' = k then some v else lookupKey k rest

/-- SQL `UPDATE ... SET ... WHERE cond`: rewrite every row whose key and
value satisfy `cond` by `f`, leaving the other rows untouched. -/
def updWhere (cond : Nat → α → Prop) [∀ k a, Decidable (cond k a)]
    (f : α → α) (l : List (Nat × α)) : List (Nat × α) :=
  l.map (fun p => (p.1, if cond p.1 p.2 then f p.2 else p.2))

theorem lookupKey_updWhere (cond : Nat → α → Prop) [∀ k a, Decidable (cond k a)]
    (f : α → α) (l : List (Nat × α)) (k : Nat) :
    lookupKey k (updWhere cond f l) =
      (lookupKey k l).map (fun v => if cond k v then f v else v) := by
  induction l with
  | nil => rfl
  | cons p rest ih =>
    obtain ⟨k', v⟩ := p
    by_cases hk : k' = k
    · subst hk
      simp [updWhere, lookupKey]
    · simpa [updWhere, lookupKey, hk] using ih

theorem updWhere_keys (cond : Nat → α → Prop) [∀ k a, Decidable (cond k a)]
    (f : α → α) (l : List (Nat × α)) :
    (updWhere cond f l).map Prod.fst = l.map Prod.fst := by
  induction l with
  | nil => rfl
  | cons p rest ih =>
    simp only [updWhere, List.map_cons] at ih ⊢
    simp [ih]

theorem length_updWhere (cond : Nat → α → Prop) [∀ k a, Decidable (cond k a)]
    (f : α → α) (l : List (Nat × α)) :
    (updWhere cond f l).length = l.length := by
  simpa using congrArg List.length (updWhere_keys cond f l)

/-! ## Hold Manager -/

/-- The seat row with this id exists and has status AVAILABLE (the
availability check of the hold request). -/
def seatAvail (db : DB) (sid : Nat) : Bool :=
  match lookupKey sid db.seats with
  | some s => decide (s.status = .AVAILABLE)
  | none => false

/-- Modelled from the spec: `createHold(trainRunId, seatIds, userId,
ttlSeconds)` of the Hold Manager.  The repository specifies the endpoint
`POST /api/seat_holds` (docs/AGENT_SPEC.md: check seats AVAILABLE,
create a `seat_holds` row with owner and expiry, 409 if a seat is not
available; database/BOOKING_FLOW.md: hold TTL) but contains no backend
implementation, so the operation is rendered from the spec's contract:
a non-empty seat set belonging to the run, ttl within bounds, all seats
AVAILABLE; on success every requested seat becomes HELD recording the
new hold id, and one ACTIVE hold with expiry now + ttl is inserted. -/
def createHold (db : DB) (uid : Nat) (sids : List Nat) (ttl maxTtl : Nat) :
    Res Nat × DB :=
  if sids = [] ∨ ttl = 0 ∨ maxTtl < ttl then (.err .InvalidRequest, db)
  else if ¬ (∀ sid ∈ sids, (lookupKey sid db.seats).isSome = true) then
    (.err .NotFound, db)
  else if ¬ (∀ sid ∈ sids, seatAvail db sid = true) then
    (.err .SeatUnavailable, db)
  else
    (.ok db.nextHoldId,
     { db with
       seats := updWhere (fun k _ => k ∈ sids)
                  (fun s => { s with status := .HELD, holdId := some db.nextHoldId })
                  db.seats,
       holds := (db.nextHoldId,
                 { userId := uid, seatIds := sids, expiresAt := db.now + ttl,
                   status := .ACTIVE }) :: db.holds,
       nextHoldId := db.nextHoldId + 1 })

/-- Modelled from the spec: `releaseHold(holdId, userId)` (backend not
implemented in the repository).  Only the owner may release; releasing a
terminal hold is a no-op success; releasing an ACTIVE hold reverts its
still-held seats to AVAILABLE and the hold to RELEASED. -/
def releaseHold (db : DB) (hid uid : Nat) : Res Unit × DB :=
  match lookupKey hid db.holds with
  | none => (.err .NotFound, db)
  | some h =>
    if h.userId ≠ uid then (.err .Forbidden, db)
    else if h.status = .ACTIVE then
      (.ok (),
       { db with
         holds := updWhere (fun k _ => k = hid)
                    (fun hh => { hh with status := .RELEASED }) db.holds,
         seats := updWhere
                    (fun k s => k ∈ h.seatIds ∧ s.status = .HELD ∧ s.holdId = some hid)
                    (fun s => { s with status := .AVAILABLE, holdId := none })
                    db.seats })
    else (.ok (), db)

/-- Modelled from the spec: one step of the reaper sweep (backend not
implemented in the repository): a stale ACTIVE hold (expiry elapsed) is
marked EXPIRED and its still-held seats are freed; any other hold is
left untouched. -/
def expireHold (db : DB) (hid : Nat) : DB :=
  match lookupKey hid db.holds with
  | none => db
  | some h =>
    if h.status = .ACTIVE ∧ h.expiresAt ≤ db.now then
      { db with
        holds := updWhere (fun k _ => k = hid)
                   (fun hh => { hh with status := .EXPIRED }) db.holds,
        seats := updWhere
                   (fun k s => k ∈ h.seatIds ∧ s.status = .HELD ∧ s.holdId = some hid)
                   (fun s => { s with status := .AVAILABLE, holdId := none })
                   db.seats }
    else db

/-- Embedded from docs/AGENT_SPEC.md, SQL Statements item 3, "Release
holds (if using seat_holds table)": the single statement
`UPDATE seat_holds SET status='EXPIRED' WHERE id = :hold_id` — keyed on
the hold id alone, with no guard on the current status. -/
def releaseHoldsSql (db : DB) (hid : Nat) : DB :=
  { db with
    holds := updWhere (fun k _ => k = hid)
               (fun h => { h with status := .EXPIRED }) db.holds }

/-! ## Booking Transaction Coordinator -/

/-- Embedded from the WHERE clause of the commit UPDATE in
database/BOOKING_FLOW.md lines 31-36 and docs/AGENT_SPEC.md lines
146-150: a seat may be booked when
`status = 'AVAILABLE' OR (status = 'HELD' AND hold_id = :hold_id)`. -/
def seatGuard (hid : Nat) (s : Seat) : Bool :=
  decide (s.status = .AVAILABLE) ||
    (decide (s.status = .HELD) && decide (s.holdId = some hid))

/-- Embedded from the verification SELECT of the booking transaction
(database/BOOKING_FLOW.md lines 25-29): the seat row exists and matches
the commit guard. -/
def seatOk (db : DB) (hid sid : Nat) : Bool :=
  match lookupKey sid db.seats with
  | some s => seatGuard hid s
  | none => false

/-- Every seat of the hold passes the verification SELECT; if any does
not, the transaction is rolled back (BOOKING_FLOW.md line 53). -/
def holdVerifyOk (db : DB) (hid : Nat) (sids : List Nat) : Prop :=
  ∀ sid ∈ sids, seatOk db hid sid = true

instance (db : DB) (hid : Nat) (sids : List Nat) :
    Decidable (holdVerifyOk db hid sids) := by
  unfold holdVerifyOk
  infer_instance

/-- The computed total of the attempt: sum of the `price_cents` of the
seats in the hold. -/
def totalOf (db : DB) (sids : List Nat) : Nat :=
  (sids.map (fun sid =>
    match lookupKey sid db.seats with
    | some s => s.price
    | none => 0)).sum

/-- The body of `finalizeBooking` once the hold checks have passed.
Verification and the commit are embedded from the documented SQL
transaction (database/BOOKING_FLOW.md lines 21-50, docs/AGENT_SPEC.md
lines 143-160): seats matching the guard are set BOOKED, one CONFIRMED
and PAID booking row and its booking_seats are inserted, all in one
atomic unit; a failed verification rolls back with no change.  The
payment-rejection path is modelled from the spec (backend not
implemented): the hold is released and its still-held seats freed, no
booking row is written. -/
def finalizeChecked (db : DB) (hid uid : Nat) (h : Hold) (npass : Nat)
    (pay : Bool) : Res Nat × DB :=
  if npass ≠ h.seatIds.length then (.err .PassengerCountMismatch, db)
  else if ¬ holdVerifyOk db hid h.seatIds then (.err .Conflict, db)
  else if pay = false then
    (.err .PaymentDeclined,
     { db with
       holds := updWhere (fun k _ => k = hid)
                  (fun hh => { hh with status := .RELEASED }) db.holds,
       seats := updWhere
                  (fun k s => k ∈ h.seatIds ∧ s.status = .HELD ∧ s.holdId = some hid)
                  (fun s => { s with status := .AVAILABLE, holdId := none })
                  db.seats })
  else
    (.ok db.nextBookingId,
     { db with
       seats := updWhere (fun k s => k ∈ h.seatIds ∧ seatGuard hid s = true)
                  (fun s => { s with status := .BOOKED }) db.seats,
       holds := updWhere (fun k _ => k = hid)
                  (fun hh => { hh with status := .CONSUMED }) db.holds,
       bookings := (db.nextBookingId,
                    { userId := uid, seatIds := h.seatIds,
                      total := totalOf db h.seatIds,
                      status := .CONFIRMED, payStatus := .PAID }) :: db.bookings,
       nextBookingId := db.nextBookingId + 1 })

/-- `finalizeBooking(holdId, userId, passengers, paymentMethod)`
(`POST /api/bookings`).  The hold checks are embedded from
database/BOOKING_FLOW.md line 16 ("verifies the hold belongs to the user
and is not expired") together with the spec's preconditions (hold
exists, owned, ACTIVE, expiry strictly in the future, one passenger per
seat); the rest is `finalizeChecked`. -/
def finalizeBooking (db : DB) (hid uid npass : Nat) (pay : Bool) :
    Res Nat × DB :=
  match lookupKey hid db.holds with
  | none => (.err .HoldNotFound, db)
  | some h =>
    if h.userId ≠ uid then (.err .Forbidden, db)
    else if h.status ≠ .ACTIVE then (.err .Conflict, db)
    else if h.expiresAt ≤ db.now then (.err .HoldExpired, db)
    else finalizeChecked db hid uid h npass pay

/-! ## Cancellation Handler -/

/-- `cancelBooking(bookingId, userId)`
(`POST /api/bookings/{booking_id}/cancel`).  The transaction body is
embedded from docs/AGENT_SPEC.md lines 165-172 "Cancel booking
(atomic)": the booking row update is guarded by its current status
(`SET status='CANCELLED' ... WHERE booking_id = :booking_id AND
status = 'CONFIRMED'`), while the seat update frees every seat listed in
the booking's booking_seats rows unconditionally
(`UPDATE seats SET status='AVAILABLE' WHERE id IN (SELECT seat_id FROM
booking_seats WHERE booking_id = ...)`).  Existence and ownership checks
are from the spec (NotFound, Forbidden). -/
def cancelBooking (db : DB) (bid uid : Nat) : Res Unit × DB :=
  match lookupKey bid db.bookings with
  | none => (.err .NotFound, db)
  | some b =>
    if b.userId ≠ uid then (.err .Forbidden, db)
    else
      (.ok (),
       { db with
         bookings := updWhere (fun k bb => k = bid ∧ bb.status = .CONFIRMED)
                       (fun bb => { bb with status := .CANCELLED,
                                            payStatus := .REFUNDED }) db.bookings,
         seats := updWhere (fun k _ => k ∈ b.seatIds)
                    (fun s => { s with status := .AVAILABLE }) db.seats })

/-! ## The operation surface as a transition system -/

/-- One call against the train-run's inventory (results discarded). -/
inductive Op where
  | create (uid : Nat) (sids : List Nat) (ttl maxTtl : Nat)
  | finalize (hid uid npass : Nat) (pay : Bool)
  | release (hid uid : Nat)
  | expire (hid : Nat)
  | cancel (bid uid : Nat)
  | tick (d : Nat)
deriving DecidableEq

/-- Apply one operation to the store. -/
def step (db : DB) : Op → DB
  | .create uid sids ttl maxTtl => (createHold db uid sids ttl maxTtl).2
  | .finalize hid uid npass pay => (finalizeBooking db hid uid npass pay).2
  | .release hid uid => (releaseHold db hid uid).2
  | .expire hid => expireHold db hid
  | .cancel bid uid => (cancelBooking db bid uid).2
  | .tick d => { db with now := db.now + d }

/-- Run a sequence of operations. -/
def run (ops : List Op) (db : DB) : DB :=
  ops.foldl step db

/-! ## Concrete scenario (spec section 8: train-run with two seats of
price 500 each) -/

/-- Initial inventory: train-run with seats 1 and 2, both AVAILABLE,
price_cents 500 each. -/
def dbInit : DB :=
  { seats := [(1, ⟨.AVAILABLE, none, 500⟩), (2, ⟨.AVAILABLE, none, 500⟩)],
    holds := [], bookings := [], nextHoldId := 0, nextBookingId := 0,
    now := 0 }

/-- User 1 holds seat 1, books it (booking 0), cancels the booking;
user 2 then holds the freed seat 1 (hold 1, ACTIVE). -/
def cancelTrace : List Op :=
  [.create 1 [1] 120 300, .finalize 0 1 1 true, .cancel 0 1,
   .create 2 [1] 120 300]

/-- `cancelTrace` followed by a second cancel of the already-CANCELLED
booking 0: the documented seat update frees seat 1 although it is held
by user 2's ACTIVE hold. -/
def doubleCancelTrace : List Op :=
  cancelTrace ++ [.cancel 0 1]

/-- C2: the second `cancelBooking` on the already-CANCELLED booking 0 is
not a state no-op: the booking row is already CANCELLED and seat 1 is
meanwhile HELD by user 2's ACTIVE hold, yet the call reports plain
success (no AlreadyCancelled) and the documented unconditional seat
update sets seat 1 back to AVAILABLE, changing the store. -/
theorem cancelBooking_second_call_frees_reclaimed_seat :
    (lookupKey 0 (run cancelTrace dbInit).bookings).map Booking.status
        = some .CANCELLED ∧
    (lookupKey 1 (run cancelTrace dbInit).seats).map Seat.status
        = some .HELD ∧
    (cancelBooking (run cancelTrace dbInit) 0 1).1 = .ok () ∧
    (lookupKey 1 (cancelBooking (run cancelTrace dbInit) 0 1).2.seats).map
        Seat.status = some .AVAILABLE ∧
    (cancelBooking (run cancelTrace dbInit) 0 1).2 ≠ run cancelTrace dbInit := by
  decide

/-- C3: the disjointness invariant is violated in a reachable state:
after the double cancel of booking 0 has clobbered seat 1 back to
AVAILABLE while user 2's hold 1 is still ACTIVE on it, a `createHold` by
user 3 on the overlapping seat set succeeds instead of failing with
Conflict, and the final state has seat 1 inside two ACTIVE holds. -/
theorem createHold_overlapping_active_hold_succeeds :
    (createHold (run doubleCancelTrace dbInit) 3 [1] 120 300).1 = .ok 2 ∧
    lookupKey 1 (run (doubleCancelTrace ++ [.create 3 [1] 120 300]) dbInit).holds
        = some ⟨2, [1], 120, .ACTIVE⟩ ∧
    lookupKey 2 (run (doubleCancelTrace ++ [.create 3 [1] 120 300]) dbInit).holds
        = some ⟨3, [1], 120, .ACTIVE⟩ := by
  decide

/-- C1 counterexample: a `finalizeBooking` on hold 1 at a state where
seat 1 — the only seat of the hold — has status AVAILABLE (it reverted
after the double cancel), so it is not HELD by this hold at verification
time; the claim says the attempt must fail with no seat booked, but the
documented commit (status = AVAILABLE is accepted by its WHERE clause)
books the seat and the call succeeds. -/
theorem finalizeBooking_books_reverted_available_seat :
    (lookupKey 1 (run doubleCancelTrace dbInit).seats).map Seat.status
        = some .AVAILABLE ∧
    lookupKey 1 (run doubleCancelTrace dbInit).holds
        = some ⟨2, [1], 120, .ACTIVE⟩ ∧
    (finalizeBooking (run doubleCancelTrace dbInit) 1 2 1 true).1 = .ok 1 ∧
    (lookupKey 1
        (finalizeBooking (run doubleCancelTrace dbInit) 1 2 1 true).2.seats).map
        Seat.status = some .BOOKED := by
  decide

/-- A store whose only hold is in the terminal status CONSUMED. -/
def dbConsumed : DB :=
  { seats := [], holds := [(0, ⟨1, [1], 120, .CONSUMED⟩)], bookings := [],
    nextHoldId := 1, nextBookingId := 0, now := 200 }

/-- C5 counterexample: the documented release statement applied to an
already-CONSUMED hold is not a no-op — the hold leaves its terminal
status and becomes EXPIRED, because the UPDATE is keyed on the id alone
and not guarded by the current status. -/
theorem releaseHoldsSql_changes_consumed_hold :
    (lookupKey 0 dbConsumed.holds).map Hold.status = some .CONSUMED ∧
    (lookupKey 0 (releaseHoldsSql dbConsumed 0).holds).map Hold.status
        = some .EXPIRED := by
  decide

/-- C5 amended: the documented release statement unconditionally leaves
the target hold EXPIRED whatever its previous status (so re-running it
is idempotent), and never touches any other hold. -/
theorem releaseHoldsSql_unconditional :
    ∀ (db : DB) (hid : Nat),
      releaseHoldsSql (releaseHoldsSql db hid) hid = releaseHoldsSql db hid ∧
      lookupKey hid (releaseHoldsSql db hid).holds
        = (lookupKey hid db.holds).map (fun h => { h with status := .EXPIRED }) ∧
      ∀ k, k ≠ hid →
        lookupKey k (releaseHoldsSql db hid).holds = lookupKey k db.holds := by
  intro db hid
  refine ⟨?_, ?_, ?_⟩
  · have hl : ∀ l : List (Nat × Hold),
        updWhere (fun k (_ : Hold) => k = hid)
            (fun h => { h with status := .EXPIRED })
            (updWhere (fun k (_ : Hold) => k = hid)
              (fun h => { h with status := .EXPIRED }) l)
          = updWhere (fun k (_ : Hold) => k = hid)
              (fun h => { h with status := .EXPIRED }) l := by
      intro l
      induction l with
      | nil => rfl
      | cons p rest ih =>
        by_cases hp : p.1 = hid
        · simp [updWhere, hp] at ih ⊢
          exact ih
        · simp [updWhere, hp] at ih ⊢
          exact ih
    simp only [releaseHoldsSql]
    rw [hl db.holds]
  · rw [releaseHoldsSql]
    simp only [lookupKey_updWhere]
    cases lookupKey hid db.holds with
    | none => rfl
    | some h => simp
  · intro k hk
    rw [releaseHoldsSql]
    simp only [lookupKey_updWhere]
    cases lookupKey k db.holds with
    | none => rfl
    | some h => simp [hk]

/-- Witness for the hypothesis-bearing part of
`releaseHoldsSql_unconditional` at a concrete store and keys. -/
theorem releaseHoldsSql_unconditional_witness :
    (5 : Nat) ≠ 0 ∧
      lookupKey 5 (releaseHoldsSql dbConsumed 0).holds
        = lookupKey 5 dbConsumed.holds :=
  ⟨by decide, (releaseHoldsSql_unconditional dbConsumed 0).2.2 5 (by decide)⟩

/-! ## Conservation -/

/-- Number of seat rows of the train-run currently in the given
status. -/
def countStatus (st : SeatStatus) (l : List (Nat × Seat)) : Nat :=
  l.countP (fun q => decide (q.2.status = st))

theorem countStatus_sum (l : List (Nat × Seat)) :
    countStatus .AVAILABLE l + countStatus .HELD l + countStatus .BOOKED l
      = l.length := by
  induction l with
  | nil => rfl
  | cons q rest ih =>
    cases hq : q.2.status <;>
      simp [countStatus, List.countP_cons, hq] at ih ⊢ <;> omega

theorem step_seats_keys (db : DB) (op : Op) :
    ((step db op).seats).map Prod.fst = db.seats.map Prod.fst := by
  cases op <;>
    simp only [step, createHold, finalizeBooking, finalizeChecked,
      releaseHold, expireHold, cancelBooking] <;>
    (repeat' split) <;>
    (first
      | rfl
      | (dsimp only; apply updWhere_keys))

theorem run_seats_keys (ops : List Op) (db : DB) :
    ((run ops db).seats).map Prod.fst = db.seats.map Prod.fst := by
  induction ops generalizing db with
  | nil => rfl
  | cons op rest ih =>
    calc ((run (op :: rest) db).seats).map Prod.fst
        = ((run rest (step db op)).seats).map Prod.fst := rfl
      _ = ((step db op).seats).map Prod.fst := ih (step db op)
      _ = db.seats.map Prod.fst := step_seats_keys db op

/-- C7: seat conservation.  Any sequence of the five operations (and
clock ticks) leaves the key set of the `seats` table unchanged — no
operation creates or deletes seat rows — and since every seat row
carries exactly one of the three statuses, the AVAILABLE, HELD and
BOOKED counts always sum to the total number of seats of the run. -/
theorem seat_conservation (db : DB) (ops : List Op) :
    ((run ops db).seats).map Prod.fst = db.seats.map Prod.fst ∧
    countStatus .AVAILABLE (run ops db).seats
      + countStatus .HELD (run ops db).seats
      + countStatus .BOOKED (run ops db).seats
      = db.seats.length := by
  refine ⟨run_seats_keys ops db, ?_⟩
  have hlen : (run ops db).seats.length = db.seats.length := by
    simpa using congrArg List.length (run_seats_keys ops db)
  rw [← hlen]
  exact countStatus_sum _

/-! ## Contracts of the Hold Manager and the Coordinator -/

theorem createHold_ok_inv (db : DB) (uid : Nat) (sids : List Nat)
    (ttl maxTtl hid : Nat) (db₁ : DB)
    (h : createHold db uid sids ttl maxTtl = (.ok hid, db₁)) :
    hid = db.nextHoldId ∧
    db₁ = { db with
      seats := updWhere (fun k _ => k ∈ sids)
                 (fun s => { s with status := .HELD,
                                    holdId := some db.nextHoldId }) db.seats,
      holds := (db.nextHoldId,
                ⟨uid, sids, db.now + ttl, .ACTIVE⟩) :: db.holds,
      nextHoldId := db.nextHoldId + 1 } := by
  rw [createHold] at h
  split at h
  · simp at h
  · split at h
    · simp at h
    · split at h
      · simp at h
      · simp only [Prod.mk.injEq, Res.ok.injEq] at h
        exact ⟨h.1.symm, h.2.symm⟩

/-- C4: the all-or-nothing contract of `createHold`: an invalid request
(empty seat set or ttl out of bounds), a seat id not in the run, or a
seat that is not AVAILABLE each fail with the corresponding error kind
and leave the store untouched; otherwise exactly one new ACTIVE hold
with expiry now + ttl is prepended, every requested seat becomes HELD
referencing it, and nothing else changes. -/
theorem createHold_contract (db : DB) (uid : Nat) (sids : List Nat)
    (ttl maxTtl : Nat) :
    ( (sids = [] ∨ ttl = 0 ∨ maxTtl < ttl) →
        createHold db uid sids ttl maxTtl = (.err .InvalidRequest, db) )
    ∧ ( ¬(sids = [] ∨ ttl = 0 ∨ maxTtl < ttl) →
        ¬(∀ sid ∈ sids, (lookupKey sid db.seats).isSome = true) →
        createHold db uid sids ttl maxTtl = (.err .NotFound, db) )
    ∧ ( ¬(sids = [] ∨ ttl = 0 ∨ maxTtl < ttl) →
        (∀ sid ∈ sids, (lookupKey sid db.seats).isSome = true) →
        ¬(∀ sid ∈ sids, seatAvail db sid = true) →
        createHold db uid sids ttl maxTtl = (.err .SeatUnavailable, db) )
    ∧ ( ¬(sids = [] ∨ ttl = 0 ∨ maxTtl < ttl) →
        (∀ sid ∈ sids, (lookupKey sid db.seats).isSome = true) →
        (∀ sid ∈ sids, seatAvail db sid = true) →
        ∃ hid db₁,
          createHold db uid sids ttl maxTtl = (.ok hid, db₁) ∧
          db₁.holds = (hid, ⟨uid, sids, db.now + ttl, .ACTIVE⟩) :: db.holds ∧
          (∀ sid ∈ sids, lookupKey sid db₁.seats
             = (lookupKey sid db.seats).map
                 (fun s => { s with status := .HELD, holdId := some hid })) ∧
          (∀ k, k ∉ sids → lookupKey k db₁.seats = lookupKey k db.seats) ∧
          db₁.bookings = db.bookings ∧ db₁.now = db.now ) := by
  refine ⟨?_, ?_, ?_, ?_⟩
  · intro hbad
    rw [createHold, if_pos hbad]
  · intro hok hmiss
    rw [createHold, if_neg hok, if_pos hmiss]
  · intro hok hall hnav
    rw [createHold, if_neg hok, if_neg (fun h => h hall), if_pos hnav]
  · intro hok hall hav
    refine ⟨db.nextHoldId,
      { db with
        seats := updWhere (fun k _ => k ∈ sids)
                   (fun s => { s with status := .HELD,
                                      holdId := some db.nextHoldId }) db.seats,
        holds := (db.nextHoldId,
                  ⟨uid, sids, db.now + ttl, .ACTIVE⟩) :: db.holds,
        nextHoldId := db.nextHoldId + 1 }, ?_, rfl, ?_, ?_, rfl, rfl⟩
    · rw [createHold, if_neg hok, if_neg (fun h => h hall), if_neg (fun h => h hav)]
    · intro sid hsid
      rw [lookupKey_updWhere]
      cases lookupKey sid db.seats with
      | none => rfl
      | some s => simp [hsid]
    · intro k hk
      rw [lookupKey_updWhere]
      cases lookupKey k db.seats with
      | none => rfl
      | some s => simp [hk]

/-- Witness for `createHold_contract`: user 1 holds seats 1 and 2 of the
two-seat run for 120 seconds. -/
theorem createHold_contract_witness :
    ∃ hid db₁,
      createHold dbInit 1 [1, 2] 120 300 = (.ok hid, db₁) ∧
      db₁.holds = (hid, ⟨1, [1, 2], dbInit.now + 120, .ACTIVE⟩) :: dbInit.holds ∧
      (∀ sid ∈ ([1, 2] : List Nat), lookupKey sid db₁.seats
         = (lookupKey sid dbInit.seats).map
             (fun s => { s with status := .HELD, holdId := some hid })) ∧
      (∀ k, k ∉ ([1, 2] : List Nat) →
         lookupKey k db₁.seats = lookupKey k dbInit.seats) ∧
      db₁.bookings = dbInit.bookings ∧ db₁.now = dbInit.now :=
  (createHold_contract dbInit 1 [1, 2] 120 300).2.2.2
    (by simp) (by decide) (by decide)

/-- The store after user 1 has successfully held seats 1 and 2
(hold 0, expiry 120). -/
def dbHold : DB := (createHold dbInit 1 [1, 2] 120 300).2

/-- C8: hold TTL correctness.  For a hold created with ttl seconds at
time `now`, a `finalizeBooking` by the owner at any instant strictly
before `now + ttl` passes every hold-validity check (it reduces to the
checked body, so only passenger count, seat verification or payment can
still fail), while at or after `now + ttl` it is rejected with
HoldExpired and the store — in particular its bookings table — is
unchanged. -/
theorem holdTtl_correct (db : DB) (uid : Nat) (sids : List Nat)
    (ttl maxTtl hid : Nat) (db₁ : DB)
    (hc : createHold db uid sids ttl maxTtl = (.ok hid, db₁))
    (t npass : Nat) (pay : Bool) :
    ( t < db.now + ttl →
        finalizeBooking { db₁ with now := t } hid uid npass pay
          = finalizeChecked { db₁ with now := t } hid uid
              ⟨uid, sids, db.now + ttl, .ACTIVE⟩ npass pay )
    ∧ ( db.now + ttl ≤ t →
        finalizeBooking { db₁ with now := t } hid uid npass pay
          = (.err .HoldExpired, { db₁ with now := t }) ) := by
  obtain ⟨hhid, hdb⟩ := createHold_ok_inv db uid sids ttl maxTtl hid db₁ hc
  subst hhid
  subst hdb
  constructor
  · intro ht
    rw [finalizeBooking]
    simp only [lookupKey, if_true]
    rw [if_neg (by simp), if_neg (by simp), if_neg (by omega)]
  · intro ht
    rw [finalizeBooking]
    simp only [lookupKey, if_true]
    rw [if_neg (by simp), if_neg (by simp), if_pos (by omega)]

theorem finalizeBooking_eq_checked (db : DB) (hid uid npass : Nat)
    (pay : Bool) (h : Hold) (hlk : lookupKey hid db.holds = some h)
    (hu : h.userId = uid) (hs : h.status = .ACTIVE)
    (hexp : db.now < h.expiresAt) :
    finalizeBooking db hid uid npass pay
      = finalizeChecked db hid uid h npass pay := by
  rw [finalizeBooking]
  split
  · rename_i heq
    rw [hlk] at heq
    exact absurd heq (by simp)
  · rename_i h' heq
    rw [hlk] at heq
    injection heq with heq'
    subst heq'
    rw [if_neg (fun hne => hne hu), if_neg (fun hne => hne hs),
        if_neg (by omega)]

theorem seatOk_cases (db : DB) (hid sid : Nat)
    (h : seatOk db hid sid = true) :
    ∃ s₀, lookupKey sid db.seats = some s₀ ∧
      (s₀.status = .AVAILABLE ∨
        (s₀.status = .HELD ∧ s₀.holdId = some hid)) := by
  rw [seatOk] at h
  cases hstate : lookupKey sid db.seats with
  | none =>
    rw [hstate] at h
    exact absurd h (by simp)
  | some s₀ =>
    rw [hstate] at h
    refine ⟨s₀, rfl, ?_⟩
    simpa [seatGuard] using h

/-- C6: outcome of the failure paths of `finalizeBooking` on a valid
hold.  If the Payment Oracle declines, no booking row is written, the
hold becomes RELEASED, and every seat of the hold ends AVAILABLE for
other users to claim; if instead the seat re-verification fails, the
call returns Conflict and the store is left exactly as it was (so the
still-valid hold remains ACTIVE). -/
theorem paymentDeclined_releases_hold (db : DB) (hid uid npass : Nat)
    (h : Hold) (hlk : lookupKey hid db.holds = some h)
    (hu : h.userId = uid) (hs : h.status = .ACTIVE)
    (hexp : db.now < h.expiresAt) (hn : npass = h.seatIds.length) :
    ( holdVerifyOk db hid h.seatIds →
        ∃ db', finalizeBooking db hid uid npass false
            = (.err .PaymentDeclined, db') ∧
          db'.bookings = db.bookings ∧
          lookupKey hid db'.holds = some { h with status := .RELEASED } ∧
          (∀ sid ∈ h.seatIds, ∀ s,
             lookupKey sid db'.seats = some s → s.status = .AVAILABLE) )
    ∧ ( ¬ holdVerifyOk db hid h.seatIds →
        ∀ pay, finalizeBooking db hid uid npass pay = (.err .Conflict, db) ) := by
  constructor
  · intro hv
    rw [finalizeBooking_eq_checked db hid uid npass false h hlk hu hs hexp,
        finalizeChecked, if_neg (fun c => c hn), if_neg (fun c => c hv),
        if_pos rfl]
    refine ⟨_, rfl, rfl, ?_, ?_⟩
    · rw [lookupKey_updWhere, hlk]
      simp
    · intro sid hsid s hlks
      obtain ⟨s₀, hstate, hcases⟩ := seatOk_cases db hid sid (hv sid hsid)
      rw [lookupKey_updWhere, hstate] at hlks
      rcases hcases with hav | ⟨hheld, href⟩
      · rw [Option.map_some'] at hlks
        rw [if_neg (by simp [hav])] at hlks
        injection hlks with hlks'
        rw [← hlks']
        exact hav
      · rw [Option.map_some'] at hlks
        rw [if_pos ⟨hsid, hheld, href⟩] at hlks
        injection hlks with hlks'
        rw [← hlks']
  · intro hnv pay
    rw [finalizeBooking_eq_checked db hid uid npass pay h hlk hu hs hexp,
        finalizeChecked, if_neg (fun c => c hn), if_pos hnv]

/-- Witness for `paymentDeclined_releases_hold`: declining the payment
for hold 0 of the two-seat store releases the hold and frees both
seats. -/
theorem paymentDeclined_releases_hold_witness :
    ∃ db', finalizeBooking dbHold 0 1 2 false = (.err .PaymentDeclined, db') ∧
      db'.bookings = dbHold.bookings ∧
      lookupKey 0 db'.holds
        = some { userId := 1, seatIds := [1, 2], expiresAt := 120,
                 status := .RELEASED } ∧
      (∀ sid ∈ ([1, 2] : List Nat), ∀ s,
         lookupKey sid db'.seats = some s → s.status = .AVAILABLE) :=
  (paymentDeclined_releases_hold dbHold 0 1 2
      ⟨1, [1, 2], 120, .ACTIVE⟩ (by decide) (by decide) (by decide)
      (by decide) (by decide)).1 (by decide)

/-- C1 amended: the commit guard of the documented booking transaction.
On a valid ACTIVE unexpired hold, if some seat of the hold is neither
AVAILABLE nor HELD with this hold's reference (so: HELD by another hold,
or already BOOKED, or deleted), the attempt fails with Conflict and the
store is untouched; if every seat is AVAILABLE or HELD by this hold —
not only in the strictly-HELD case the claim stated — the commit books
all of them, consumes the hold and inserts the CONFIRMED, PAID booking
row. -/
theorem finalize_commit_guard (db : DB) (hid uid npass : Nat)
    (h : Hold) (hlk : lookupKey hid db.holds = some h)
    (hu : h.userId = uid) (hs : h.status = .ACTIVE)
    (hexp : db.now < h.expiresAt) (hn : npass = h.seatIds.length) :
    ( ¬ holdVerifyOk db hid h.seatIds →
        finalizeBooking db hid uid npass true = (.err .Conflict, db) )
    ∧ ( holdVerifyOk db hid h.seatIds →
        ∃ db', finalizeBooking db hid uid npass true
            = (.ok db.nextBookingId, db') ∧
          (∀ sid ∈ h.seatIds, ∀ s,
             lookupKey sid db'.seats = some s → s.status = .BOOKED) ∧
          lookupKey hid db'.holds = some { h with status := .CONSUMED } ∧
          db'.bookings = (db.nextBookingId,
            { userId := uid, seatIds := h.seatIds,
              total := totalOf db h.seatIds,
              status := .CONFIRMED, payStatus := .PAID }) :: db.bookings ) := by
  constructor
  · intro hnv
    rw [finalizeBooking_eq_checked db hid uid npass true h hlk hu hs hexp,
        finalizeChecked, if_neg (fun c => c hn), if_pos hnv]
  · intro hv
    rw [finalizeBooking_eq_checked db hid uid npass true h hlk hu hs hexp,
        finalizeChecked, if_neg (fun c => c hn), if_neg (fun c => c hv),
        if_neg (by simp)]
    refine ⟨_, rfl, ?_, ?_, rfl⟩
    · intro sid hsid s hlks
      obtain ⟨s₀, hstate, hcases⟩ := seatOk_cases db hid sid (hv sid hsid)
      have hguard : seatGuard hid s₀ = true := by
        rcases hcases with hav | ⟨hheld, href⟩
        · simp [seatGuard, hav]
        · simp [seatGuard, hheld, href]
      rw [lookupKey_updWhere, hstate, Option.map_some',
          if_pos ⟨hsid, hguard⟩] at hlks
      injection hlks with hlks'
      rw [← hlks']
    · rw [lookupKey_updWhere, hlk]
      simp

/-- Witness for `finalize_commit_guard`: finalizing hold 0 of the
two-seat store with accepted payment books both seats. -/
theorem finalize_commit_guard_witness :
    ∃ db', finalizeBooking dbHold 0 1 2 true
        = (.ok dbHold.nextBookingId, db') ∧
      (∀ sid ∈ ([1, 2] : List Nat), ∀ s,
         lookupKey sid db'.seats = some s → s.status = .BOOKED) ∧
      lookupKey 0 db'.holds
        = some { userId := 1, seatIds := [1, 2], expiresAt := 120,
                 status := .CONSUMED } ∧
      db'.bookings = (dbHold.nextBookingId,
        { userId := 1, seatIds := [1, 2], total := totalOf dbHold [1, 2],
          status := .CONFIRMED, payStatus := .PAID }) :: dbHold.bookings :=
  (finalize_commit_guard dbHold 0 1 2
      ⟨1, [1, 2], 120, .ACTIVE⟩ (by decide) (by decide) (by decide)
      (by decide) (by decide)).2 (by decide)

/-- Witness for `holdTtl_correct`: the hold of `dbHold` (created at time
0 with ttl 120) passes the hold checks at time 100 and is rejected as
expired at time 120. -/
theorem holdTtl_correct_witness :
    ( finalizeBooking { dbHold with now := 100 } 0 1 2 true
        = finalizeChecked { dbHold with now := 100 } 0 1
            ⟨1, [1, 2], dbInit.now + 120, .ACTIVE⟩ 2 true )
    ∧ ( finalizeBooking { dbHold with now := 120 } 0 1 2 true
        = (.err .HoldExpired, { dbHold with now := 120 }) ) :=
  ⟨(holdTtl_correct dbInit 1 [1, 2] 120 300 0 dbHold (by decide) 100 2
      true).1 (by decide),
   (holdTtl_correct dbInit 1 [1, 2] 120 300 0 dbHold (by decide) 120 2
      true).2 (by decide)⟩

/-! ## Frontend booking page
(embedded from `frontend/app/book/[trainNumber]/page.tsx`) -/

/-- A seat as the booking page receives it: `id` and `price_cents`
(the other display fields play no role in the embedded logic). -/
structure FSeat where
  id : Nat
  price_cents : Nat
deriving DecidableEq

/-- The comparator passed to `.sort` on line 193 of the page orders the
selected seat objects by the position of their id in `selectedSeats`
(JS `selectedSeats.indexOf(a.id) - selectedSeats.indexOf(b.id)`). -/
def selOrder (selectedSeats : List Nat) (a b : FSeat) : Bool :=
  decide (selectedSeats.indexOf a.id ≤ selectedSeats.indexOf b.id)

/-- Insertion step of the sort used to model JS `Array.prototype.sort`
(any comparison sort computes a permutation ordered by the
comparator). -/
def insertSorted (le : FSeat → FSeat → Bool) (x : FSeat) :
    List FSeat → List FSeat
  | [] => [x]
  | y :: ys => if le x y then x :: y :: ys else y :: insertSorted le x ys

/-- The sort used to model JS `Array.prototype.sort`. -/
def sortSeats (le : FSeat → FSeat → Bool) : List FSeat → List FSeat
  | [] => []
  | x :: xs => insertSorted le x (sortSeats le xs)

/-- Embedded from page line 193:
`seats.filter(s => selectedSeats.includes(s.id)).sort(...)`. -/
def selectedSeatObjects (seats : List FSeat) (selectedSeats : List Nat) :
    List FSeat :=
  sortSeats (selOrder selectedSeats)
    (seats.filter (fun s => selectedSeats.contains s.id))

/-- Embedded from page line 194:
`selectedSeatObjects.reduce((sum, seat) => sum + seat.price_cents, 0)`. -/
def totalPrice (seats : List FSeat) (selectedSeats : List Nat) : Nat :=
  (selectedSeatObjects seats selectedSeats).foldl
    (fun sum seat => sum + seat.price_cents) 0

theorem foldl_add_price (l : List FSeat) (n : Nat) :
    l.foldl (fun sum seat => sum + seat.price_cents) n
      = n + (l.map FSeat.price_cents).sum := by
  induction l generalizing n with
  | nil => simp
  | cons x xs ih => simp [List.foldl_cons, ih, Nat.add_assoc]

theorem sum_insertSorted (le : FSeat → FSeat → Bool) (x : FSeat)
    (l : List FSeat) :
    ((insertSorted le x l).map FSeat.price_cents).sum
      = x.price_cents + (l.map FSeat.price_cents).sum := by
  induction l with
  | nil => simp [insertSorted]
  | cons y ys ih =>
    cases hle : le x y with
    | true => simp [insertSorted, hle]
    | false =>
      simp [insertSorted, hle, ih]
      omega

theorem sum_sortSeats (le : FSeat → FSeat → Bool) (l : List FSeat) :
    ((sortSeats le l).map FSeat.price_cents).sum
      = (l.map FSeat.price_cents).sum := by
  induction l with
  | nil => rfl
  | cons x xs ih => simp [sortSeats, sum_insertSorted, ih]

/-- C9: the total shown and charged by the booking page is exactly the
sum of the `price_cents` of the selected seats — no discount, fee or
rounding — and in particular two selected seats priced 500 each yield a
total of 1000. -/
theorem totalPrice_eq_sum_of_prices :
    (∀ (seats : List FSeat) (selectedSeats : List Nat),
       totalPrice seats selectedSeats
         = ((seats.filter
              (fun s => selectedSeats.contains s.id)).map FSeat.price_cents).sum)
    ∧ totalPrice [⟨1, 500⟩, ⟨2, 500⟩] [1, 2] = 1000 := by
  constructor
  · intro seats selectedSeats
    rw [totalPrice, foldl_add_price, Nat.zero_add, selectedSeatObjects,
      sum_sortSeats]
  · decide

/-- A passenger form of the booking page. -/
structure Passenger where
  name : String
  age : String
  gender : String
deriving DecidableEq

/-- The blank passenger appended on seat selection
(page line 75). -/
def blankPassenger : Passenger := { name := "", age := "", gender := "M" }

/-- The state handled by `toggleSeat`. -/
structure BookState where
  selectedSeats : List Nat
  passengers : List Passenger
deriving DecidableEq

/-- Embedded from page lines 66-77.  JS `indexOf` yields -1 exactly when
the seat id is absent; here `List.indexOf` yields the length instead, so
the JS test `index !== -1` becomes `index ≠ length`.  Deselection
filters the seat id out of `selectedSeats` and drops the passenger whose
position equals `index` (JS `passengers.filter((_, i) => i !== index)`);
selection appends the seat id and one blank passenger. -/
def toggleSeat (st : BookState) (seatId : Nat) : BookState :=
  let index := st.selectedSeats.indexOf seatId
  if index = st.selectedSeats.length then
    { selectedSeats := st.selectedSeats ++ [seatId],
      passengers := st.passengers ++ [blankPassenger] }
  else
    { selectedSeats := st.selectedSeats.filter (fun x => x != seatId),
      passengers := ((st.passengers.enum).filter
                       (fun p => p.1 != index)).map Prod.snd }

/-- The page starts with no seats selected and no passenger forms. -/
def initBookState : BookState :=
  { selectedSeats := [], passengers := [] }

/-- A sequence of seat clicks applied to the page state. -/
def runToggles (clicks : List Nat) (st : BookState) : BookState :=
  clicks.foldl toggleSeat st

theorem enumFrom_filter_ge (l : List Passenger) :
    ∀ (n k : Nat), k < n →
      (List.enumFrom n l).filter (fun p => p.1 != k) = List.enumFrom n l := by
  induction l with
  | nil => intro n k _; rfl
  | cons x xs ih =>
    intro n k hk
    have hne : (n != k) = true := by
      simp [bne_iff_ne]
      omega
    simp only [List.enumFrom, List.filter_cons, hne, if_true]
    rw [ih (n + 1) k (Nat.lt_succ_of_lt hk)]

theorem enumFrom_map_snd (l : List Passenger) :
    ∀ n : Nat, (List.enumFrom n l).map Prod.snd = l := by
  induction l with
  | nil => intro n; rfl
  | cons x xs ih =>
    intro n
    simp only [List.enumFrom, List.map_cons, ih]

theorem enumFrom_filter_ne_map_snd (l : List Passenger) :
    ∀ (n i : Nat),
      ((List.enumFrom n l).filter (fun p => p.1 != (n + i))).map Prod.snd
        = l.eraseIdx i := by
  induction l with
  | nil => intro n i; rfl
  | cons x xs ih =>
    intro n i
    cases i with
    | zero =>
      have hhd : (n != (n + 0)) = false := by simp
      simp only [List.enumFrom, List.filter_cons, hhd, if_false]
      rw [enumFrom_filter_ge xs (n + 1) (n + 0) (by omega)]
      simp [enumFrom_map_snd]
    | succ j =>
      have hhd : (n != (n + (j + 1))) = true := by
        simp [bne_iff_ne]
      simp only [List.enumFrom, List.filter_cons, hhd, if_true, List.map_cons]
      have harg : (fun p : Nat × Passenger => p.1 != (n + (j + 1)))
          = (fun p : Nat × Passenger => p.1 != ((n + 1) + j)) := by
        funext p
        have : n + (j + 1) = (n + 1) + j := by omega
        rw [this]
      rw [harg, ih (n + 1) j]
      rfl

theorem enum_filter_ne_map_snd (l : List Passenger) (i : Nat) :
    ((l.enum).filter (fun p => p.1 != i)).map Prod.snd = l.eraseIdx i := by
  have harg : (fun p : Nat × Passenger => p.1 != i)
      = (fun p : Nat × Passenger => p.1 != (0 + i)) := by
    funext p
    rw [Nat.zero_add]
  rw [List.enum, harg, enumFrom_filter_ne_map_snd l 0 i]

/-- The invariant of the page state: the selected seat ids are distinct
(a seat can only be toggled, never selected twice) and there is exactly
one passenger form per selected seat. -/
def GoodState (st : BookState) : Prop :=
  st.selectedSeats.Nodup ∧ st.selectedSeats.length = st.passengers.length

theorem toggleSeat_good (st : BookState) (sid : Nat) (h : GoodState st) :
    GoodState (toggleSeat st sid) := by
  obtain ⟨hnd, hlen⟩ := h
  rw [toggleSeat]
  by_cases hidx : st.selectedSeats.indexOf sid = st.selectedSeats.length
  · have hmem : sid ∉ st.selectedSeats := List.indexOf_eq_length.mp hidx
    rw [if_pos hidx]
    refine ⟨?_, ?_⟩
    · simp [List.nodup_append, hnd, hmem]
    · simp [hlen]
  · have hlt : st.selectedSeats.indexOf sid < st.selectedSeats.length :=
      Nat.lt_of_le_of_ne (List.indexOf_le_length) hidx
    have hmem : sid ∈ st.selectedSeats := List.indexOf_lt_length.mp hlt
    rw [if_neg hidx]
    refine ⟨?_, ?_⟩
    · exact hnd.filter _
    · have h1 : (st.selectedSeats.filter (fun x => x != sid)).length
          = st.selectedSeats.length - 1 := by
        rw [← List.Nodup.erase_eq_filter hnd sid]
        exact List.length_erase_of_mem hmem
      have h2 : (((st.passengers.enum).filter
            (fun p => p.1 != st.selectedSeats.indexOf sid)).map Prod.snd).length
          = st.passengers.length - 1 := by
        rw [enum_filter_ne_map_snd]
        exact List.length_eraseIdx_of_lt (by omega)
      simp only [h1, h2]
      omega

theorem runToggles_good (clicks : List Nat) (st : BookState)
    (h : GoodState st) : GoodState (runToggles clicks st) := by
  induction clicks generalizing st with
  | nil => exact h
  | cons c rest ih => exact ih (toggleSeat st c) (toggleSeat_good st c h)

/-- C10: the booking page always has exactly one passenger form per
selected seat, and the pairing is positional: from the initial state,
any sequence of `toggleSeat` clicks leaves
`selectedSeats.length = passengers.length`; selecting an unselected seat
appends the seat id and one blank passenger, and deselecting a selected
seat removes the seat id and exactly the passenger at its position. -/
theorem toggleSeat_pairs_seats_with_passengers :
    (∀ clicks : List Nat,
       (runToggles clicks initBookState).selectedSeats.length
         = (runToggles clicks initBookState).passengers.length)
    ∧ (∀ (st : BookState) (sid : Nat),
         sid ∉ st.selectedSeats →
         toggleSeat st sid
           = { selectedSeats := st.selectedSeats ++ [sid],
               passengers := st.passengers ++ [blankPassenger] })
    ∧ (∀ (st : BookState) (sid : Nat),
         st.selectedSeats.Nodup → sid ∈ st.selectedSeats →
         (toggleSeat st sid).selectedSeats = st.selectedSeats.erase sid
         ∧ (toggleSeat st sid).passengers
             = st.passengers.eraseIdx (st.selectedSeats.indexOf sid)) := by
  refine ⟨?_, ?_, ?_⟩
  · intro clicks
    exact (runToggles_good clicks initBookState ⟨List.nodup_nil, rfl⟩).2
  · intro st sid hmem
    rw [toggleSeat, if_pos (List.indexOf_eq_length.mpr hmem)]
  · intro st sid hnd hmem
    have hidx : st.selectedSeats.indexOf sid ≠ st.selectedSeats.length :=
      Nat.ne_of_lt (List.indexOf_lt_length.mpr hmem)
    rw [toggleSeat, if_neg hidx]
    exact ⟨(List.Nodup.erase_eq_filter hnd sid).symm,
           enum_filter_ne_map_snd st.passengers _⟩

/-- Witness for `toggleSeat_pairs_seats_with_passengers` at the concrete
one-seat state. -/
theorem toggleSeat_pairs_seats_with_passengers_witness :
    ([5] : List Nat).Nodup ∧ (5 : Nat) ∈ ([5] : List Nat) ∧
      ((toggleSeat ⟨[5], [blankPassenger]⟩ 5).selectedSeats
          = ([5] : List Nat).erase 5
       ∧ (toggleSeat ⟨[5], [blankPassenger]⟩ 5).passengers
           = [blankPassenger].eraseIdx (([5] : List Nat).indexOf 5)) :=
  ⟨by decide, by decide,
   toggleSeat_pairs_seats_with_passengers.2.2 ⟨[5], [blankPassenger]⟩ 5
     (by decide) (by decide)⟩

end Railway
